import Mathlib

set_option maxRecDepth 100000

/-!
# BoxPushing environment: a shallow embedding

This file embeds the `BoxPushingEnv` grid-world simulation
(`minigrid/envs/boxpushing.py`) in Lean 4, and proves or refutes the
specification claims about it.

The environment itself (`_gen_grid`, `reset`, `is_success`, `_reward`,
`step`) is translated directly from `boxpushing.py`.  The base-layer
helpers it relies on (world-object overlap semantics, grid cell
storage, direction vectors, the base `reset` behaviour) live outside
the provided sources and are modelled from the specification; each such
definition is marked `Modelled from the spec:` in its doc comment.

Python floats in the reward computation are modelled as exact rational
arithmetic over `ℚ`; machine random sampling (`np.random.choice`,
`place_agent`) is modelled by passing the sampled values as explicit
parameters.
-/

namespace BoxPushing

/-- Modelled from the spec: the color enumeration of the entity
catalog (`COLOR_TO_IDX` in the base layer, not under `src/`).  Only
the palette used by `BoxPushingEnv` matters: `green` in uniform mode,
`yellow, green, blue, red` in colored mode; the remaining standard
colors are included for completeness. -/
inductive Color
  | red
  | green
  | blue
  | purple
  | yellow
  | grey
deriving DecidableEq, Repr

/-- Modelled from the spec: the closed entity variant
`{Wall, Box(color), Goal(color)}`.  `ColoredGoal` from the base layer
is a goal carrying a color and has `type = "goal"`. -/
inductive WorldObj
  | wall
  | box (color : Color)
  | goal (color : Color)
deriving DecidableEq, Repr

/-- Modelled from the spec: `can_overlap` — true for Goal, false for
Wall and Box. -/
def canOverlap : WorldObj → Bool
  | WorldObj.wall => false
  | WorldObj.box _ => false
  | WorldObj.goal _ => true

/-- `can_overlap` lifted to an optional cell content: an empty cell
counts as passable.  This is the test `cell is None or
cell.can_overlap()` used twice in `BoxPushingEnv.step`. -/
def overlapOk : Option WorldObj → Bool
  | none => true
  | some o => canOverlap o

/-- Modelled from the spec: the grid model — a `width × height` array
of cells, each holding at most one entity.  Cells are stored as a
total function; callers pre-validate coordinates before access, as the
spec requires of `get`/`set`. -/
structure Grid where
  width : Nat
  height : Nat
  cells : Int → Int → Option WorldObj

/-- Modelled from the spec: `Grid.get` — cell lookup (coordinates are
pre-validated by callers). -/
def Grid.get (g : Grid) (i j : Int) : Option WorldObj :=
  g.cells i j

/-- Modelled from the spec: `Grid.set` — overwrites a single cell's
content, no other cell is touched. -/
def Grid.set (g : Grid) (i j : Int) (o : Option WorldObj) : Grid :=
  { g with cells := fun x y => if x = i ∧ y = j then o else g.cells x y }

/-- Modelled from the spec: `wall_rect(0, 0, width, height)` — stamps
a Wall border ring on the grid. -/
def Grid.wall_rect (g : Grid) : Grid :=
  { g with cells := fun x y =>
      if x = 0 ∨ y = 0 ∨ x = (g.width : Int) - 1 ∨ y = (g.height : Int) - 1 then
        some WorldObj.wall
      else g.cells x y }

/-- An all-empty grid, the state of `Grid(width, height)` before any
object is placed. -/
def Grid.empty (width height : Nat) : Grid :=
  ⟨width, height, fun _ _ => none⟩

/-- Modelled from the spec: `DIR_TO_VEC` — direction 0,1,2,3 is
right, down, left, up. -/
def dirVec : Nat → Int × Int
  | 0 => (1, 0)
  | 1 => (0, 1)
  | 2 => (-1, 0)
  | _ => (0, -1)

/-- The full mutable state of one `BoxPushingEnv` instance: the
configuration fields fixed at construction (`size`, `max_steps`,
`required_boxes_num`, `colored`) together with the grid, the agent
and the episode counters. -/
structure BoxPushingEnv where
  size : Nat
  max_steps : Nat
  required_boxes_num : Nat
  colored : Bool
  grid : Grid
  agent_pos : Int × Int
  agent_dir : Nat
  step_count : Nat
  success_boxes_num : Nat
  every_box_step_count : Nat

/-- `self.color_box`: `["green"] * 4`, replaced by
`["yellow", "green", "blue", "red"]` when `colored`. -/
def color_box (colored : Bool) : Fin 4 → Color :=
  if colored then ![Color.yellow, Color.green, Color.blue, Color.red]
  else ![Color.green, Color.green, Color.green, Color.green]

/-- Modelled from the spec: `front_pos` — the cell in front of the
agent, `agent_pos + dir_vec`. -/
def BoxPushingEnv.front_pos (env : BoxPushingEnv) : Int × Int :=
  (env.agent_pos.1 + (dirVec env.agent_dir).1,
   env.agent_pos.2 + (dirVec env.agent_dir).2)

/-- `BoxPushingEnv.is_success`:
`self.success_boxes_num == self.required_boxes_num`. -/
def BoxPushingEnv.is_success (env : BoxPushingEnv) : Bool :=
  env.success_boxes_num == env.required_boxes_num

/-- `BoxPushingEnv._reward`:
`max(0, 1 - 0.9 * (self.every_box_step_count / self.max_steps))`,
with the float arithmetic modelled exactly over `ℚ`. -/
def BoxPushingEnv._reward (env : BoxPushingEnv) : ℚ :=
  max 0 (1 - (9 / 10) * ((env.every_box_step_count : ℚ) / (env.max_steps : ℚ)))

/-- The error raised by `step` on an action outside `{0, 1, 2}`
(`raise ValueError(f"Unknown action: {action}")`). -/
inductive StepError
  | unknownAction (action : Nat)
deriving DecidableEq, Repr

/-- The `(reward, terminated, truncated)` part of the tuple returned
by `step` (the observation and info dict carry no state of their
own). -/
structure StepResult where
  reward : ℚ
  terminated : Bool
  truncated : Bool
deriving DecidableEq, Repr

/-- The tail of `BoxPushingEnv.step` shared by every non-raising
branch: `if self.is_success(): terminated = True; reward = 10` and
`if self.step_count >= self.max_steps * self.required_boxes_num:
truncated = True`. -/
def stepFinish (env : BoxPushingEnv) (reward : ℚ) :
    BoxPushingEnv × Except StepError StepResult :=
  let terminated := env.is_success
  let reward := if env.is_success then (10 : ℚ) else reward
  let truncated := env.step_count ≥ env.max_steps * env.required_boxes_num
  (env, Except.ok ⟨reward, terminated, truncated⟩)

/-- `BoxPushingEnv.step`, translated line by line.  The returned pair
is the mutated environment together with either the
`(reward, terminated, truncated)` result or the `ValueError` raised
on an unknown action (the mutations made before the raise are kept,
as in Python). -/
def BoxPushingEnv.step (env : BoxPushingEnv) (action : Nat) :
    BoxPushingEnv × Except StepError StepResult :=
  let env := { env with
    step_count := env.step_count + 1,
    every_box_step_count := env.every_box_step_count + 1 }
  -- `self.dir_vec` depends only on `agent_dir`, which the forward branch
  -- never modifies, so it is read once here.
  let dv := dirVec env.agent_dir
  let fwd_pos : Int × Int := (env.agent_pos.1 + dv.1, env.agent_pos.2 + dv.2)
  let fwd_cell := env.grid.get fwd_pos.1 fwd_pos.2
  if action = 0 then
    -- Rotate left
    stepFinish { env with
      agent_dir := if env.agent_dir = 0 then 3 else env.agent_dir - 1 } 0
  else if action = 1 then
    -- Rotate right
    stepFinish { env with agent_dir := (env.agent_dir + 1) % 4 } 0
  else if action = 2 then
    -- Move forward; `moved` is the state after the plain agent move,
    -- `pushed` the state after the box relocation (the grid is read
    -- and written through `env.grid`, which the agent move left
    -- untouched).
    let moved := if overlapOk fwd_cell then { env with agent_pos := fwd_pos } else env
    match fwd_cell with
    | some (WorldObj.box c) =>
      let new_box_obs : Int × Int := (fwd_pos.1 + dv.1, fwd_pos.2 + dv.2)
      let new_fwd_cell := env.grid.get new_box_obs.1 new_box_obs.2
      let pushed :=
        if overlapOk new_fwd_cell then
          { moved with
            grid := (env.grid.set new_box_obs.1 new_box_obs.2
                      (some (WorldObj.box c))).set fwd_pos.1 fwd_pos.2 none,
            agent_pos := fwd_pos }
        else moved
      match new_fwd_cell with
      | some (WorldObj.goal gc) =>
        if gc = c then
          stepFinish { pushed with
            success_boxes_num := pushed.success_boxes_num + 1,
            every_box_step_count := 0 } (BoxPushingEnv._reward pushed)
        else stepFinish pushed 0
      | _ => stepFinish pushed 0
    | _ => stepFinish moved 0
  else
    (env, Except.error (StepError.unknownAction action))

/-- Modelled from the spec: `put_obj(obj, i, j)` — places an object
into a grid cell. -/
def put_obj (g : Grid) (o : WorldObj) (i j : Int) : Grid :=
  g.set i j (some o)

/-- The cell assigned to the box with sampled index `idx` by
`_gen_grid`: `[idx // (width - 4) + 2, idx % (width - 4) + 2]`. -/
def box_pos_of_idx (width idx : Nat) : Int × Int :=
  ((idx / (width - 4) : Nat) + 2, (idx % (width - 4) : Nat) + 2)

/-- `BoxPushingEnv._gen_grid`: border walls, one `ColoredGoal` per
corner, one `Box` per sampled interior position.  The draw
`np.random.choice((width-4)*(height-4), 4, replace=False)` is
modelled by the explicit parameter `boxIdx` (distinctness of the four
indices is an assumption of theorems that need it, mirroring
`replace=False`). -/
def gen_grid (colored : Bool) (width height : Nat) (boxIdx : Fin 4 → Nat) : Grid :=
  let cb := color_box colored
  let g := (Grid.empty width height).wall_rect
  let g := put_obj g (WorldObj.goal (cb 0)) ((width : Int) - 2) ((height : Int) - 2)
  let g := put_obj g (WorldObj.goal (cb 1)) 1 1
  let g := put_obj g (WorldObj.goal (cb 2)) ((width : Int) - 2) 1
  let g := put_obj g (WorldObj.goal (cb 3)) 1 ((height : Int) - 2)
  let g := put_obj g (WorldObj.box (cb 0)) (box_pos_of_idx width (boxIdx 0)).1
            (box_pos_of_idx width (boxIdx 0)).2
  let g := put_obj g (WorldObj.box (cb 1)) (box_pos_of_idx width (boxIdx 1)).1
            (box_pos_of_idx width (boxIdx 1)).2
  let g := put_obj g (WorldObj.box (cb 2)) (box_pos_of_idx width (boxIdx 2)).1
            (box_pos_of_idx width (boxIdx 2)).2
  let g := put_obj g (WorldObj.box (cb 3)) (box_pos_of_idx width (boxIdx 3)).1
            (box_pos_of_idx width (boxIdx 3)).2
  g

/-- `BoxPushingEnv.reset` composed with the base-class reset it
delegates to.  From `boxpushing.py`: `self.success_boxes_num = 0`.
Modelled from the spec: the base reset sets `step_count = 0`,
rebuilds the grid via `_gen_grid` and places the agent (the random
agent placement and box sampling are the explicit parameters).
Note that `every_box_step_count` is carried over unchanged: neither
the subclass `reset` nor the base reset touches it. -/
def BoxPushingEnv.reset (env : BoxPushingEnv) (boxIdx : Fin 4 → Nat)
    (agentPos : Int × Int) (agentDir : Nat) : BoxPushingEnv :=
  { env with
    success_boxes_num := 0,
    step_count := 0,
    grid := gen_grid env.colored env.size env.size boxIdx,
    agent_pos := agentPos,
    agent_dir := agentDir }

/-- A fresh environment as built by `__init__` (counters zeroed)
followed by the mandatory initial `reset`. -/
def mkEnv (size : Nat) (max_steps : Nat) (required_boxes_num : Nat)
    (colored : Bool) (boxIdx : Fin 4 → Nat) (agentPos : Int × Int)
    (agentDir : Nat) : BoxPushingEnv :=
  BoxPushingEnv.reset
    { size := size
      max_steps := max_steps
      required_boxes_num := required_boxes_num
      colored := colored
      grid := Grid.empty size size
      agent_pos := (0, 0)
      agent_dir := 0
      step_count := 0
      success_boxes_num := 0
      every_box_step_count := 0 }
    boxIdx agentPos agentDir

/-- Runs a list of actions from a state, keeping only the final
environment (the per-step results are recovered by `step` at the
point of interest). -/
def runTrace (env : BoxPushingEnv) : List Nat → BoxPushingEnv
  | [] => env
  | a :: rest => runTrace (env.step a).1 rest

/-- The rectangle of cell coordinates of a grid, as a finite set. -/
def Grid.region (g : Grid) : Finset (Int × Int) :=
  Finset.Icc 0 ((g.width : Int) - 1) ×ˢ Finset.Icc 0 ((g.height : Int) - 1)

/-- How many cells of the grid hold exactly the object `o`. -/
def Grid.countObj (g : Grid) (o : WorldObj) : Nat :=
  ∑ p ∈ g.region, if g.cells p.1 p.2 = some o then 1 else 0

/-- The match-event trigger of `step`, as a predicate of the
pre-step state and the action: the action is `forward`, the front
cell holds a Box, and the cell beyond holds a Goal of the same
color.  This is exactly the guard of `success_boxes_num += 1`. -/
def matchEvent (env : BoxPushingEnv) (action : Nat) : Bool :=
  if action = 2 then
    match env.grid.get env.front_pos.1 env.front_pos.2 with
    | some (WorldObj.box c) =>
      match env.grid.get (env.front_pos.1 + (dirVec env.agent_dir).1)
              (env.front_pos.2 + (dirVec env.agent_dir).2) with
      | some (WorldObj.goal gc) => gc = c
      | _ => false
    | _ => false
  else false


/-! ## Concrete episodes used as witnesses and counterexamples

`idx4` gives the four sampled box indices: on an 8×8 grid they place
the boxes at (5,2), (2,2), (5,5), (2,5).  In colored mode the goals
are yellow (6,6), green (1,1), blue (6,1), red (1,6) and the boxes
carry the same four colors in the order yellow, green, blue, red.

`traceTwoMatches` first pushes the green box from (2,2) to (1,2) and
onto the green goal (1,1) (first match, on its 7th step), then walks
to the red box at (2,5), pushes it to (2,6) and onto the red goal
(1,6) (second match, on its 19th step). -/

/-- The sampled box indices used by the concrete episodes. -/
def idx4 : Fin 4 → Nat := ![12, 0, 15, 3]

/-- A freshly reset colored 8×8 environment with
`required_boxes_num = 1` and the default `max_steps = 4 * 8^2`. -/
def envColored1 : BoxPushingEnv := mkEnv 8 256 1 true idx4 (3, 2) 2

/-- The same episode layout with `required_boxes_num = 4`. -/
def envColored4 : BoxPushingEnv := mkEnv 8 256 4 true idx4 (3, 2) 2

/-- Action sequence producing a first match at step 7 and a second
match at step 19. -/
def traceTwoMatches : List Nat := [2, 0, 2, 1, 2, 1, 2, 1, 2, 1, 2, 2, 2, 0, 2, 1, 2, 1, 2]

/-- A colored 8×8 environment with `max_steps = 8` and
`required_boxes_num = 1`, so the truncation bound is 8 steps. -/
def envShort : BoxPushingEnv := mkEnv 8 8 1 true idx4 (4, 2) 2

/-- Eight actions whose final step pushes the green box onto the
green goal: the match and the step bound land on the same tick. -/
def traceShort : List Nat := [2, 2, 0, 2, 1, 2, 1, 2]

/-- The state reached by the first six actions of `traceTwoMatches`:
the agent stands at (1,3) facing up, with the green box at (1,2) and
the green goal at (1,1) directly behind it. -/
def envBeforeFirstMatch : BoxPushingEnv := runTrace envColored1 (traceTwoMatches.take 6)

/-- The state just after the first match: `success_boxes_num = 1`,
which equals `required_boxes_num` of `envColored1`, so the episode has
terminated. -/
def envAfterFirstMatch : BoxPushingEnv := runTrace envColored1 (traceTwoMatches.take 7)

/-- The state after eighteen actions: the episode terminated back at
step 7, and the red box now sits at (2,6) with the agent at (3,6)
facing it and the red goal at (1,6) beyond it. -/
def envBeforeSecondMatch : BoxPushingEnv := runTrace envColored1 (traceTwoMatches.take 18)

/-- The pre-first-match state in the `required_boxes_num = 4`
episode. -/
def envBeforeFirstMatch4 : BoxPushingEnv := runTrace envColored4 (traceTwoMatches.take 6)

instance : DecidableEq (Except StepError StepResult) := fun a b =>
  match a, b with
  | Except.ok x, Except.ok y =>
    if h : x = y then Decidable.isTrue (by rw [h]) else Decidable.isFalse (by simp [h])
  | Except.error x, Except.error y =>
    if h : x = y then Decidable.isTrue (by rw [h]) else Decidable.isFalse (by simp [h])
  | Except.ok _, Except.error _ => Decidable.isFalse (by simp)
  | Except.error _, Except.ok _ => Decidable.isFalse (by simp)

/-- The well-formedness invariant of reachable states: the grid is at
least 3×3, every border-ring cell holds a Wall, and the agent stands
strictly inside the border.  It holds after reset and is preserved by
`step`. -/
structure WF (env : BoxPushingEnv) : Prop where
  wpos : 3 ≤ env.grid.width
  hpos : 3 ≤ env.grid.height
  border : ∀ x y : Int, 0 ≤ x → x ≤ (env.grid.width : Int) - 1 →
    0 ≤ y → y ≤ (env.grid.height : Int) - 1 →
    (x = 0 ∨ y = 0 ∨ x = (env.grid.width : Int) - 1 ∨ y = (env.grid.height : Int) - 1) →
    env.grid.cells x y = some WorldObj.wall
  agentx : 1 ≤ env.agent_pos.1 ∧ env.agent_pos.1 ≤ (env.grid.width : Int) - 2
  agenty : 1 ≤ env.agent_pos.2 ∧ env.agent_pos.2 ≤ (env.grid.height : Int) - 2

/-- The four goal corners of `_gen_grid`, indexed like `color_box`:
corner 0 is (width-2, height-2), corner 1 is (1, 1), corner 2 is
(width-2, 1), corner 3 is (1, height-2). -/
def corner_pos2 (w h : Nat) (i : Fin 4) : Int × Int :=
  if i = 0 then ((w : Int) - 2, (h : Int) - 2)
  else if i = 1 then (1, 1)
  else if i = 2 then ((w : Int) - 2, 1)
  else (1, (h : Int) - 2)

/-! ## Helper lemmas about `step` -/

/-- Unfolding of the shared tail of `step`. -/
theorem stepFinish_eq (e : BoxPushingEnv) (q : ℚ) :
    stepFinish e q = (e, Except.ok ⟨if e.is_success = true then 10 else q, e.is_success,
      decide (e.step_count ≥ e.max_steps * e.required_boxes_num)⟩) := rfl

/-- On an action outside `{0, 1, 2}`, `step` raises after having
incremented the two counters and touched nothing else. -/
theorem step_invalid (env : BoxPushingEnv) (a : Nat)
    (h0 : a ≠ 0) (h1 : a ≠ 1) (h2 : a ≠ 2) :
    env.step a = ({ env with
        step_count := env.step_count + 1,
        every_box_step_count := env.every_box_step_count + 1 },
      Except.error (StepError.unknownAction a)) := by
  unfold BoxPushingEnv.step
  simp [h0, h1, h2]

/-- On a valid action, `step` ends in `stepFinish` applied to a state
whose counters are determined by the pre-state and by whether the
match-event guard fired, with the shaped reward computed from the
already incremented `every_box_step_count`. -/
theorem step_valid_split (env : BoxPushingEnv) (a : Nat) (h : a = 0 ∨ a = 1 ∨ a = 2) :
    ∃ e, env.step a = stepFinish e (if matchEvent env a = true then
        max 0 (1 - 9/10 * (((env.every_box_step_count : ℚ) + 1) / (env.max_steps : ℚ))) else 0) ∧
      e.success_boxes_num = env.success_boxes_num + (if matchEvent env a = true then 1 else 0) ∧
      e.step_count = env.step_count + 1 ∧
      e.every_box_step_count = (if matchEvent env a = true then 0 else env.every_box_step_count + 1) ∧
      e.max_steps = env.max_steps ∧
      e.required_boxes_num = env.required_boxes_num := by
  rcases h with rfl | rfl | rfl
  · exact ⟨_, rfl, by simp [matchEvent], by simp, by simp [matchEvent], rfl, rfl⟩
  · exact ⟨_, rfl, by simp [matchEvent], by simp, by simp [matchEvent], rfl, rfl⟩
  · unfold BoxPushingEnv.step matchEvent
    simp only [BoxPushingEnv.front_pos, Grid.get]
    cases hfc : env.grid.cells (env.agent_pos.1 + (dirVec env.agent_dir).1)
        (env.agent_pos.2 + (dirVec env.agent_dir).2) with
    | none => exact ⟨_, rfl, by simp [overlapOk], by simp [overlapOk], by simp [overlapOk], rfl, rfl⟩
    | some o =>
      cases o with
      | wall => exact ⟨_, rfl, by simp [overlapOk, canOverlap],
          by simp [overlapOk, canOverlap], by simp [overlapOk, canOverlap], rfl, rfl⟩
      | goal gc => exact ⟨_, rfl, by simp [overlapOk, canOverlap],
          by simp [overlapOk, canOverlap], by simp [overlapOk, canOverlap], rfl, rfl⟩
      | box c =>
        cases hnc : env.grid.cells (env.agent_pos.1 + (dirVec env.agent_dir).1 + (dirVec env.agent_dir).1)
            (env.agent_pos.2 + (dirVec env.agent_dir).2 + (dirVec env.agent_dir).2) with
        | none => exact ⟨_, rfl, by simp [overlapOk, canOverlap],
            by simp [overlapOk, canOverlap], by simp [overlapOk, canOverlap], rfl, rfl⟩
        | some o2 =>
          cases o2 with
          | wall => exact ⟨_, rfl, by simp [overlapOk, canOverlap],
              by simp [overlapOk, canOverlap], by simp [overlapOk, canOverlap], rfl, rfl⟩
          | box c2 => exact ⟨_, rfl, by simp [overlapOk, canOverlap],
              by simp [overlapOk, canOverlap], by simp [overlapOk, canOverlap], rfl, rfl⟩
          | goal gc =>
            by_cases hg : gc = c
            · subst hg
              refine ⟨{ env with
                  grid := (env.grid.set
                      (env.agent_pos.1 + (dirVec env.agent_dir).1 + (dirVec env.agent_dir).1)
                      (env.agent_pos.2 + (dirVec env.agent_dir).2 + (dirVec env.agent_dir).2)
                      (some (WorldObj.box gc))).set
                      (env.agent_pos.1 + (dirVec env.agent_dir).1)
                      (env.agent_pos.2 + (dirVec env.agent_dir).2) none,
                  agent_pos := (env.agent_pos.1 + (dirVec env.agent_dir).1,
                    env.agent_pos.2 + (dirVec env.agent_dir).2),
                  step_count := env.step_count + 1,
                  success_boxes_num := env.success_boxes_num + 1,
                  every_box_step_count := 0 }, ?_, ?_, ?_, ?_, ?_, ?_⟩
              · simp [overlapOk, canOverlap, BoxPushingEnv._reward]
              · simp
              · rfl
              · simp
              · rfl
              · rfl
            · refine ⟨{ env with
                  grid := (env.grid.set
                      (env.agent_pos.1 + (dirVec env.agent_dir).1 + (dirVec env.agent_dir).1)
                      (env.agent_pos.2 + (dirVec env.agent_dir).2 + (dirVec env.agent_dir).2)
                      (some (WorldObj.box c))).set
                      (env.agent_pos.1 + (dirVec env.agent_dir).1)
                      (env.agent_pos.2 + (dirVec env.agent_dir).2) none,
                  agent_pos := (env.agent_pos.1 + (dirVec env.agent_dir).1,
                    env.agent_pos.2 + (dirVec env.agent_dir).2),
                  step_count := env.step_count + 1,
                  every_box_step_count := env.every_box_step_count + 1 }, ?_, ?_, ?_, ?_, ?_, ?_⟩
              · simp [overlapOk, canOverlap, hg]
              · simp [overlapOk, canOverlap, hg]
              · rfl
              · simp [overlapOk, canOverlap, hg]
              · rfl
              · rfl

/-! ## Grid-counting helpers and the reachable-state invariant -/

theorem Grid.set_cells (g : Grid) (i j : Int) (o : Option WorldObj) (x y : Int) :
    (g.set i j o).cells x y = if x = i ∧ y = j then o else g.cells x y := rfl

theorem Grid.mem_region (g : Grid) (p : Int × Int) :
    p ∈ g.region ↔ (0 ≤ p.1 ∧ p.1 ≤ (g.width : Int) - 1) ∧
      (0 ≤ p.2 ∧ p.2 ≤ (g.height : Int) - 1) := by
  simp [Grid.region, Finset.mem_product, Finset.mem_Icc]

theorem dirVec_cases (d : Nat) :
    dirVec d = (1, 0) ∨ dirVec d = (0, 1) ∨ dirVec d = (-1, 0) ∨ dirVec d = (0, -1) := by
  rcases d with _ | _ | _ | d <;> simp [dirVec]

theorem step_grid_agent (env : BoxPushingEnv) (a : Nat) :
    ((env.step a).1.grid = env.grid ∧ (env.step a).1.agent_pos = env.agent_pos) ∨
    ((env.step a).1.grid = env.grid ∧ (env.step a).1.agent_pos = env.front_pos ∧
      overlapOk (env.grid.get env.front_pos.1 env.front_pos.2) = true) ∨
    (∃ c, env.grid.get env.front_pos.1 env.front_pos.2 = some (WorldObj.box c) ∧
      overlapOk (env.grid.get (env.front_pos.1 + (dirVec env.agent_dir).1)
        (env.front_pos.2 + (dirVec env.agent_dir).2)) = true ∧
      (env.step a).1.grid = (env.grid.set
        (env.front_pos.1 + (dirVec env.agent_dir).1)
        (env.front_pos.2 + (dirVec env.agent_dir).2) (some (WorldObj.box c))).set
        env.front_pos.1 env.front_pos.2 none ∧
      (env.step a).1.agent_pos = env.front_pos) := by
  by_cases h0 : a = 0
  · subst h0
    left
    exact ⟨rfl, rfl⟩
  by_cases h1 : a = 1
  · subst h1
    left
    exact ⟨rfl, rfl⟩
  by_cases h2 : a = 2
  · subst h2
    unfold BoxPushingEnv.step
    simp only [BoxPushingEnv.front_pos, Grid.get]
    cases hfc : env.grid.cells (env.agent_pos.1 + (dirVec env.agent_dir).1)
        (env.agent_pos.2 + (dirVec env.agent_dir).2) with
    | none =>
      right; left
      exact ⟨rfl, rfl, rfl⟩
    | some o =>
      cases o with
      | wall =>
        left
        exact ⟨rfl, rfl⟩
      | goal gc =>
        right; left
        exact ⟨rfl, rfl, rfl⟩
      | box c =>
        cases hnc : env.grid.cells (env.agent_pos.1 + (dirVec env.agent_dir).1 + (dirVec env.agent_dir).1)
            (env.agent_pos.2 + (dirVec env.agent_dir).2 + (dirVec env.agent_dir).2) with
        | none =>
          right; right
          exact ⟨c, rfl, rfl, rfl, rfl⟩
        | some o2 =>
          cases o2 with
          | wall =>
            left
            exact ⟨rfl, rfl⟩
          | box c2 =>
            left
            exact ⟨rfl, rfl⟩
          | goal gc =>
            right; right
            refine ⟨c, rfl, rfl, ?_, ?_⟩ <;>
              by_cases hg : gc = c <;>
                simp [hg, stepFinish, overlapOk, canOverlap]
  · push_neg at h0 h1 h2
    rw [step_invalid env a h0 h1 h2]
    left
    exact ⟨rfl, rfl⟩



theorem not_wall_interior (env : BoxPushingEnv) (h : WF env) (p : Int × Int)
    (hb1 : 0 ≤ p.1) (hb2 : p.1 ≤ (env.grid.width : Int) - 1)
    (hb3 : 0 ≤ p.2) (hb4 : p.2 ≤ (env.grid.height : Int) - 1)
    (hnw : env.grid.cells p.1 p.2 ≠ some WorldObj.wall) :
    (1 ≤ p.1 ∧ p.1 ≤ (env.grid.width : Int) - 2) ∧
    (1 ≤ p.2 ∧ p.2 ≤ (env.grid.height : Int) - 2) := by
  by_cases hbd : p.1 = 0 ∨ p.2 = 0 ∨ p.1 = (env.grid.width : Int) - 1 ∨
      p.2 = (env.grid.height : Int) - 1
  · exact absurd (h.border p.1 p.2 hb1 hb2 hb3 hb4 hbd) hnw
  · push_neg at hbd
    obtain ⟨e1, e2, e3, e4⟩ := hbd
    exact ⟨⟨by omega, by omega⟩, by omega, by omega⟩

theorem front_pos_bounds (env : BoxPushingEnv) (h : WF env) :
    0 ≤ env.front_pos.1 ∧ env.front_pos.1 ≤ (env.grid.width : Int) - 1 ∧
    0 ≤ env.front_pos.2 ∧ env.front_pos.2 ≤ (env.grid.height : Int) - 1 := by
  obtain ⟨hax1, hax2⟩ := h.agentx
  obtain ⟨hay1, hay2⟩ := h.agenty
  have hw := h.wpos
  have hh := h.hpos
  unfold BoxPushingEnv.front_pos
  rcases dirVec_cases env.agent_dir with hd | hd | hd | hd <;>
    rw [hd] <;> simp only [Prod.fst, Prod.snd] <;>
      refine ⟨by omega, by omega, by omega, by omega⟩

theorem countObj_move (g : Grid) (p q : Int × Int) (m t : WorldObj)
    (hp : p ∈ g.region) (hq : q ∈ g.region) (hpq : p ≠ q)
    (hgp : g.cells p.1 p.2 = some m)
    (hqt : g.cells q.1 q.2 ≠ some t) :
    ((g.set q.1 q.2 (some m)).set p.1 p.2 none).countObj t = g.countObj t := by
  have hpq1 : ¬(q.1 = p.1 ∧ q.2 = p.2) := by
    rintro ⟨e1, e2⟩
    exact hpq (Prod.ext e1.symm e2.symm)
  unfold Grid.countObj
  have hreg : ((g.set q.1 q.2 (some m)).set p.1 p.2 none).region = g.region := rfl
  rw [hreg]
  have hq' : q ∈ g.region.erase p := Finset.mem_erase.mpr ⟨Ne.symm hpq, hq⟩
  rw [← Finset.add_sum_erase _ _ hp, ← Finset.add_sum_erase _ _ hp,
      ← Finset.add_sum_erase _ _ hq', ← Finset.add_sum_erase _ _ hq']
  have hrest : ∑ r ∈ (g.region.erase p).erase q,
      (if ((g.set q.1 q.2 (some m)).set p.1 p.2 none).cells r.1 r.2 = some t then 1 else 0) =
      ∑ r ∈ (g.region.erase p).erase q, (if g.cells r.1 r.2 = some t then (1:ℕ) else 0) := by
    refine Finset.sum_congr rfl ?_
    intro r hr
    have hrq : r ≠ q := (Finset.mem_erase.mp hr).1
    have hrp : r ≠ p := (Finset.mem_erase.mp (Finset.mem_erase.mp hr).2).1
    have c1 : ¬(r.1 = p.1 ∧ r.2 = p.2) := by
      rintro ⟨e1, e2⟩
      exact hrp (Prod.ext e1 e2)
    have c2 : ¬(r.1 = q.1 ∧ r.2 = q.2) := by
      rintro ⟨e1, e2⟩
      exact hrq (Prod.ext e1 e2)
    rw [Grid.set_cells, if_neg c1, Grid.set_cells, if_neg c2]
  rw [hrest]
  have hcp : ((g.set q.1 q.2 (some m)).set p.1 p.2 none).cells p.1 p.2 = none := by
    rw [Grid.set_cells, if_pos ⟨rfl, rfl⟩]
  have hcq : ((g.set q.1 q.2 (some m)).set p.1 p.2 none).cells q.1 q.2 = some m := by
    rw [Grid.set_cells, if_neg hpq1, Grid.set_cells, if_pos ⟨rfl, rfl⟩]
  rw [hcp, hcq, hgp, if_neg hqt]
  rw [if_neg (show ¬(none : Option WorldObj) = some t by simp)]
  ring

theorem step_box_count (env : BoxPushingEnv) (a : Nat) (h : WF env) (c : Color) :
    (env.step a).1.grid.countObj (WorldObj.box c) = env.grid.countObj (WorldObj.box c) := by
  rcases step_grid_agent env a with ⟨hg, -⟩ | ⟨hg, -, -⟩ | ⟨c', hfc, hov, hg, -⟩
  · rw [hg]
  · rw [hg]
  · rw [hg]
    rw [Grid.get] at hfc hov
    obtain ⟨hb1, hb2, hb3, hb4⟩ := front_pos_bounds env h
    have hint := not_wall_interior env h env.front_pos hb1 hb2 hb3 hb4 (by rw [hfc]; simp)
    obtain ⟨⟨i1, i2⟩, i3, i4⟩ := hint
    have hpreg : env.front_pos ∈ env.grid.region := by
      rw [Grid.mem_region]
      exact ⟨⟨by omega, by omega⟩, by omega, by omega⟩
    have hqreg : (env.front_pos.1 + (dirVec env.agent_dir).1,
        env.front_pos.2 + (dirVec env.agent_dir).2) ∈ env.grid.region := by
      rw [Grid.mem_region]
      rcases dirVec_cases env.agent_dir with hd | hd | hd | hd <;>
        rw [hd] <;> simp only [Prod.fst, Prod.snd] <;>
          exact ⟨⟨by omega, by omega⟩, by omega, by omega⟩
    have hpq : env.front_pos ≠ (env.front_pos.1 + (dirVec env.agent_dir).1,
        env.front_pos.2 + (dirVec env.agent_dir).2) := by
      intro he
      have h1 := congrArg Prod.fst he
      have h2 := congrArg Prod.snd he
      simp only [Prod.fst, Prod.snd] at h1 h2
      rcases dirVec_cases env.agent_dir with hd | hd | hd | hd <;>
        rw [hd] at h1 h2 <;> simp at h1 h2
    have hqt : env.grid.cells (env.front_pos.1 + (dirVec env.agent_dir).1)
        (env.front_pos.2 + (dirVec env.agent_dir).2) ≠ some (WorldObj.box c) := by
      intro he
      rw [he] at hov
      simp [overlapOk, canOverlap] at hov
    exact countObj_move env.grid env.front_pos _ (WorldObj.box c') (WorldObj.box c)
      hpreg hqreg hpq hfc hqt



theorem WF_step (env : BoxPushingEnv) (a : Nat) (h : WF env) : WF (env.step a).1 := by
  rcases step_grid_agent env a with ⟨hg, hap⟩ | ⟨hg, hap, hov⟩ | ⟨c', hfc, hov, hg, hap⟩
  · exact ⟨by rw [hg]; exact h.wpos, by rw [hg]; exact h.hpos,
      by rw [hg]; exact h.border,
      by rw [hg, hap]; exact h.agentx, by rw [hg, hap]; exact h.agenty⟩
  · obtain ⟨hb1, hb2, hb3, hb4⟩ := front_pos_bounds env h
    rw [Grid.get] at hov
    have hint := not_wall_interior env h env.front_pos hb1 hb2 hb3 hb4
      (by intro he; rw [he] at hov; simp [overlapOk, canOverlap] at hov)
    exact ⟨by rw [hg]; exact h.wpos, by rw [hg]; exact h.hpos,
      by rw [hg]; exact h.border,
      by rw [hg, hap]; exact hint.1, by rw [hg, hap]; exact hint.2⟩
  · rw [Grid.get] at hfc hov
    obtain ⟨hb1, hb2, hb3, hb4⟩ := front_pos_bounds env h
    have hint := not_wall_interior env h env.front_pos hb1 hb2 hb3 hb4 (by rw [hfc]; simp)
    obtain ⟨⟨i1, i2⟩, i3, i4⟩ := hint
    have hqb : 0 ≤ env.front_pos.1 + (dirVec env.agent_dir).1 ∧
        env.front_pos.1 + (dirVec env.agent_dir).1 ≤ (env.grid.width : Int) - 1 ∧
        0 ≤ env.front_pos.2 + (dirVec env.agent_dir).2 ∧
        env.front_pos.2 + (dirVec env.agent_dir).2 ≤ (env.grid.height : Int) - 1 := by
      rcases dirVec_cases env.agent_dir with hd | hd | hd | hd <;>
        rw [hd] <;> simp only [Prod.fst, Prod.snd] <;>
          exact ⟨by omega, by omega, by omega, by omega⟩
    obtain ⟨q1, q2, q3, q4⟩ := hqb
    have hqint : (1 ≤ env.front_pos.1 + (dirVec env.agent_dir).1 ∧
        env.front_pos.1 + (dirVec env.agent_dir).1 ≤ (env.grid.width : Int) - 2) ∧
        (1 ≤ env.front_pos.2 + (dirVec env.agent_dir).2 ∧
        env.front_pos.2 + (dirVec env.agent_dir).2 ≤ (env.grid.height : Int) - 2) := by
      refine not_wall_interior env h (env.front_pos.1 + (dirVec env.agent_dir).1,
        env.front_pos.2 + (dirVec env.agent_dir).2) q1 q2 q3 q4 ?_
      intro he
      simp only [Prod.fst, Prod.snd] at he
      rw [he] at hov
      simp [overlapOk, canOverlap] at hov
    obtain ⟨⟨j1, j2⟩, j3, j4⟩ := hqint
    refine ⟨by rw [hg]; exact h.wpos, by rw [hg]; exact h.hpos, ?_,
      by rw [hg, hap]; exact ⟨i1, i2⟩, by rw [hg, hap]; exact ⟨i3, i4⟩⟩
    intro x y hx1 hx2 hy1 hy2 hb
    rw [hg] at hx2 hy2 hb ⊢
    rw [Grid.set_cells, Grid.set_cells]
    have hw2 : ((env.grid.set (env.front_pos.1 + (dirVec env.agent_dir).1)
        (env.front_pos.2 + (dirVec env.agent_dir).2)
        (some (WorldObj.box c'))).set env.front_pos.1 env.front_pos.2 none).width
        = env.grid.width := rfl
    have hh2 : ((env.grid.set (env.front_pos.1 + (dirVec env.agent_dir).1)
        (env.front_pos.2 + (dirVec env.agent_dir).2)
        (some (WorldObj.box c'))).set env.front_pos.1 env.front_pos.2 none).height
        = env.grid.height := rfl
    rw [hw2] at hx2 hb
    rw [hh2] at hy2 hb
    rw [if_neg, if_neg]
    · exact h.border x y hx1 hx2 hy1 hy2 hb
    · rintro ⟨rfl, rfl⟩
      rcases hb with e | e | e | e <;> omega
    · rintro ⟨rfl, rfl⟩
      rcases hb with e | e | e | e <;> omega

theorem runTrace_WF_box_count (env : BoxPushingEnv) (acts : List Nat) (h : WF env) (c : Color) :
    WF (runTrace env acts) ∧
    (runTrace env acts).grid.countObj (WorldObj.box c) = env.grid.countObj (WorldObj.box c) := by
  induction acts generalizing env with
  | nil => exact ⟨h, rfl⟩
  | cons a rest ih =>
    obtain ⟨hwf, hcnt⟩ := ih (env.step a).1 (WF_step env a h)
    refine ⟨hwf, ?_⟩
    rw [runTrace, hcnt, step_box_count env a h c]



theorem box_pos_bounds (w idx : Nat) (hw : 6 ≤ w) (hidx : idx < (w - 4) * (w - 4)) :
    2 ≤ (box_pos_of_idx w idx).1 ∧ (box_pos_of_idx w idx).1 ≤ (w : Int) - 3 ∧
    2 ≤ (box_pos_of_idx w idx).2 ∧ (box_pos_of_idx w idx).2 ≤ (w : Int) - 3 := by
  have h1 : idx / (w - 4) < w - 4 := Nat.div_lt_of_lt_mul hidx
  have h2 : idx % (w - 4) < w - 4 := Nat.mod_lt _ (by omega)
  unfold box_pos_of_idx
  simp only [Prod.fst, Prod.snd]
  generalize hq : idx / (w - 4) = q at h1 ⊢
  generalize hr : idx % (w - 4) = r at h2 ⊢
  refine ⟨by omega, by omega, by omega, by omega⟩

theorem box_pos_inj (w : Nat) (hw : 6 ≤ w) {i j : Nat}
    (h : box_pos_of_idx w i = box_pos_of_idx w j) : i = j := by
  unfold box_pos_of_idx at h
  have h1 := congrArg Prod.fst h
  have h2 := congrArg Prod.snd h
  simp only [Prod.fst, Prod.snd] at h1 h2
  have e1 : i / (w - 4) = j / (w - 4) := Nat.cast_inj.mp (add_right_cancel h1)
  have e2 : i % (w - 4) = j % (w - 4) := Nat.cast_inj.mp (add_right_cancel h2)
  calc i = (w - 4) * (i / (w - 4)) + i % (w - 4) := (Nat.div_add_mod i (w - 4)).symm
  _ = (w - 4) * (j / (w - 4)) + j % (w - 4) := by rw [e1, e2]
  _ = j := Nat.div_add_mod j (w - 4)

theorem gen_grid_cells (colored : Bool) (w h : Nat) (bi : Fin 4 → Nat) (x y : Int) :
    (gen_grid colored w h bi).cells x y =
      (if x = (box_pos_of_idx w (bi 3)).1 ∧ y = (box_pos_of_idx w (bi 3)).2 then
        some (WorldObj.box (color_box colored 3))
      else if x = (box_pos_of_idx w (bi 2)).1 ∧ y = (box_pos_of_idx w (bi 2)).2 then
        some (WorldObj.box (color_box colored 2))
      else if x = (box_pos_of_idx w (bi 1)).1 ∧ y = (box_pos_of_idx w (bi 1)).2 then
        some (WorldObj.box (color_box colored 1))
      else if x = (box_pos_of_idx w (bi 0)).1 ∧ y = (box_pos_of_idx w (bi 0)).2 then
        some (WorldObj.box (color_box colored 0))
      else if x = 1 ∧ y = (h : Int) - 2 then some (WorldObj.goal (color_box colored 3))
      else if x = (w : Int) - 2 ∧ y = 1 then some (WorldObj.goal (color_box colored 2))
      else if x = 1 ∧ y = 1 then some (WorldObj.goal (color_box colored 1))
      else if x = (w : Int) - 2 ∧ y = (h : Int) - 2 then some (WorldObj.goal (color_box colored 0))
      else if x = 0 ∨ y = 0 ∨ x = (w : Int) - 1 ∨ y = (h : Int) - 1 then some WorldObj.wall
      else none) := rfl

theorem WF_mkEnv (size ms req : Nat) (colored : Bool) (bi : Fin 4 → Nat)
    (hsize : 6 ≤ size) (hbi : ∀ i, bi i < (size - 4) * (size - 4))
    (ap : Int × Int) (hax : 1 ≤ ap.1 ∧ ap.1 ≤ (size : Int) - 2)
    (hay : 1 ≤ ap.2 ∧ ap.2 ≤ (size : Int) - 2) (ad : Nat) :
    WF (mkEnv size ms req colored bi ap ad) := by
  have B0 := box_pos_bounds size (bi 0) hsize (hbi 0)
  have B1 := box_pos_bounds size (bi 1) hsize (hbi 1)
  have B2 := box_pos_bounds size (bi 2) hsize (hbi 2)
  have B3 := box_pos_bounds size (bi 3) hsize (hbi 3)
  refine ⟨by show 3 ≤ size; omega, by show 3 ≤ size; omega, ?_, hax, hay⟩
  intro x y hx1 hx2 hy1 hy2 hb
  have hg : (mkEnv size ms req colored bi ap ad).grid = gen_grid colored size size bi := rfl
  rw [hg] at hb hx2 hy2 ⊢
  have hgw : (gen_grid colored size size bi).width = size := rfl
  have hgh : (gen_grid colored size size bi).height = size := rfl
  rw [hgw] at hb hx2
  rw [hgh] at hb hy2
  rw [gen_grid_cells]
  generalize box_pos_of_idx size (bi 3) = P3 at B3 ⊢
  generalize box_pos_of_idx size (bi 2) = P2 at B2 ⊢
  generalize box_pos_of_idx size (bi 1) = P1 at B1 ⊢
  generalize box_pos_of_idx size (bi 0) = P0 at B0 ⊢
  obtain ⟨b01, b02, b03, b04⟩ := B0
  obtain ⟨b11, b12, b13, b14⟩ := B1
  obtain ⟨b21, b22, b23, b24⟩ := B2
  obtain ⟨b31, b32, b33, b34⟩ := B3
  have n3 : ¬(x = P3.1 ∧ y = P3.2) := by
    rintro ⟨rfl, rfl⟩; rcases hb with e | e | e | e <;> omega
  have n2 : ¬(x = P2.1 ∧ y = P2.2) := by
    rintro ⟨rfl, rfl⟩; rcases hb with e | e | e | e <;> omega
  have n1 : ¬(x = P1.1 ∧ y = P1.2) := by
    rintro ⟨rfl, rfl⟩; rcases hb with e | e | e | e <;> omega
  have n0 : ¬(x = P0.1 ∧ y = P0.2) := by
    rintro ⟨rfl, rfl⟩; rcases hb with e | e | e | e <;> omega
  have m3 : ¬(x = 1 ∧ y = (size : Int) - 2) := by
    rintro ⟨rfl, rfl⟩; rcases hb with e | e | e | e <;> omega
  have m2 : ¬(x = (size : Int) - 2 ∧ y = 1) := by
    rintro ⟨rfl, rfl⟩; rcases hb with e | e | e | e <;> omega
  have m1 : ¬(x = 1 ∧ y = 1) := by
    rintro ⟨rfl, rfl⟩; rcases hb with e | e | e | e <;> omega
  have m0 : ¬(x = (size : Int) - 2 ∧ y = (size : Int) - 2) := by
    rintro ⟨rfl, rfl⟩; rcases hb with e | e | e | e <;> omega
  rw [if_neg n3, if_neg n2, if_neg n1, if_neg n0, if_neg m3, if_neg m2, if_neg m1,
    if_neg m0, if_pos hb]



theorem color_box_true_inj : ∀ a b : Fin 4, color_box true a = color_box true b → a = b := by
  decide

theorem gen_grid_box_count (w : Nat) (hw : 6 ≤ w) (bi : Fin 4 → Nat)
    (hbi : ∀ i, bi i < (w - 4) * (w - 4)) (hinj : ∀ i j : Fin 4, bi i = bi j → i = j)
    (i : Fin 4) :
    (gen_grid true w w bi).countObj (WorldObj.box (color_box true i)) = 1 := by
  have bpinj : ∀ a b : Fin 4, box_pos_of_idx w (bi a) = box_pos_of_idx w (bi b) → a = b :=
    fun a b hab => hinj a b (box_pos_inj w hw hab)
  have Bi := box_pos_bounds w (bi i) hw (hbi i)
  unfold Grid.countObj
  have hreg : (gen_grid true w w bi).region =
      Finset.Icc (0 : Int) ((w : Int) - 1) ×ˢ Finset.Icc (0 : Int) ((w : Int) - 1) := rfl
  rw [hreg]
  have hpoint : ∀ p ∈ Finset.Icc (0 : Int) ((w : Int) - 1) ×ˢ Finset.Icc (0 : Int) ((w : Int) - 1),
      (if (gen_grid true w w bi).cells p.1 p.2 = some (WorldObj.box (color_box true i))
        then (1 : ℕ) else 0) =
      (if p = box_pos_of_idx w (bi i) then 1 else 0) := by
    intro p hp
    rw [gen_grid_cells]
    by_cases hc3 : p.1 = (box_pos_of_idx w (bi 3)).1 ∧ p.2 = (box_pos_of_idx w (bi 3)).2
    · have hp3 : p = box_pos_of_idx w (bi 3) := Prod.ext hc3.1 hc3.2
      rw [if_pos hc3]
      by_cases hi : i = 3
      · subst hi
        rw [if_pos rfl, if_pos hp3]
      · have hvne : ¬(some (WorldObj.box (color_box true 3)) =
            some (WorldObj.box (color_box true i))) := by
          intro he
          simp only [Option.some.injEq, WorldObj.box.injEq] at he
          exact hi (color_box_true_inj 3 i he).symm
        have hrne : ¬(p = box_pos_of_idx w (bi i)) := by
          intro he
          rw [hp3] at he
          exact hi (bpinj 3 i he).symm
        rw [if_neg hvne, if_neg hrne]
    · rw [if_neg hc3]
      by_cases hc2 : p.1 = (box_pos_of_idx w (bi 2)).1 ∧ p.2 = (box_pos_of_idx w (bi 2)).2
      · have hp2 : p = box_pos_of_idx w (bi 2) := Prod.ext hc2.1 hc2.2
        rw [if_pos hc2]
        by_cases hi : i = 2
        · subst hi
          rw [if_pos rfl, if_pos hp2]
        · have hvne : ¬(some (WorldObj.box (color_box true 2)) =
              some (WorldObj.box (color_box true i))) := by
            intro he
            simp only [Option.some.injEq, WorldObj.box.injEq] at he
            exact hi (color_box_true_inj 2 i he).symm
          have hrne : ¬(p = box_pos_of_idx w (bi i)) := by
            intro he
            rw [hp2] at he
            exact hi (bpinj 2 i he).symm
          rw [if_neg hvne, if_neg hrne]
      · rw [if_neg hc2]
        by_cases hc1 : p.1 = (box_pos_of_idx w (bi 1)).1 ∧ p.2 = (box_pos_of_idx w (bi 1)).2
        · have hp1 : p = box_pos_of_idx w (bi 1) := Prod.ext hc1.1 hc1.2
          rw [if_pos hc1]
          by_cases hi : i = 1
          · subst hi
            rw [if_pos rfl, if_pos hp1]
          · have hvne : ¬(some (WorldObj.box (color_box true 1)) =
                some (WorldObj.box (color_box true i))) := by
              intro he
              simp only [Option.some.injEq, WorldObj.box.injEq] at he
              exact hi (color_box_true_inj 1 i he).symm
            have hrne : ¬(p = box_pos_of_idx w (bi i)) := by
              intro he
              rw [hp1] at he
              exact hi (bpinj 1 i he).symm
            rw [if_neg hvne, if_neg hrne]
        · rw [if_neg hc1]
          by_cases hc0 : p.1 = (box_pos_of_idx w (bi 0)).1 ∧ p.2 = (box_pos_of_idx w (bi 0)).2
          · have hp0 : p = box_pos_of_idx w (bi 0) := Prod.ext hc0.1 hc0.2
            rw [if_pos hc0]
            by_cases hi : i = 0
            · subst hi
              rw [if_pos rfl, if_pos hp0]
            · have hvne : ¬(some (WorldObj.box (color_box true 0)) =
                  some (WorldObj.box (color_box true i))) := by
                intro he
                simp only [Option.some.injEq, WorldObj.box.injEq] at he
                exact hi (color_box_true_inj 0 i he).symm
              have hrne : ¬(p = box_pos_of_idx w (bi i)) := by
                intro he
                rw [hp0] at he
                exact hi (bpinj 0 i he).symm
              rw [if_neg hvne, if_neg hrne]
          · rw [if_neg hc0]
            have hnb : ¬((if p.1 = 1 ∧ p.2 = (w : Int) - 2 then
                  some (WorldObj.goal (color_box true 3))
                else if p.1 = (w : Int) - 2 ∧ p.2 = 1 then
                  some (WorldObj.goal (color_box true 2))
                else if p.1 = 1 ∧ p.2 = 1 then
                  some (WorldObj.goal (color_box true 1))
                else if p.1 = (w : Int) - 2 ∧ p.2 = (w : Int) - 2 then
                  some (WorldObj.goal (color_box true 0))
                else if p.1 = 0 ∨ p.2 = 0 ∨ p.1 = (w : Int) - 1 ∨ p.2 = (w : Int) - 1 then
                  some WorldObj.wall
                else none) = some (WorldObj.box (color_box true i))) := by
              split_ifs <;> simp
            have hrne : ¬(p = box_pos_of_idx w (bi i)) := by
              intro he
              fin_cases i
              · exact hc0 ⟨by rw [he]; rfl, by rw [he]; rfl⟩
              · exact hc1 ⟨by rw [he]; rfl, by rw [he]; rfl⟩
              · exact hc2 ⟨by rw [he]; rfl, by rw [he]; rfl⟩
              · exact hc3 ⟨by rw [he]; rfl, by rw [he]; rfl⟩
            rw [if_neg hnb, if_neg hrne]
  rw [Finset.sum_congr rfl hpoint]
  rw [Finset.sum_ite_eq' (Finset.Icc (0 : Int) ((w : Int) - 1) ×ˢ
    Finset.Icc (0 : Int) ((w : Int) - 1)) (box_pos_of_idx w (bi i)) (fun _ => (1 : ℕ))]
  have hmem : box_pos_of_idx w (bi i) ∈ Finset.Icc (0 : Int) ((w : Int) - 1) ×ˢ
      Finset.Icc (0 : Int) ((w : Int) - 1) := by
    rw [Finset.mem_product, Finset.mem_Icc, Finset.mem_Icc]
    obtain ⟨c1, c2, c3, c4⟩ := Bi
    exact ⟨⟨by omega, by omega⟩, by omega, by omega⟩
  rw [if_pos hmem]



theorem gen_grid_goal_count (w : Nat) (hw : 6 ≤ w) (bi : Fin 4 → Nat)
    (hbi : ∀ i, bi i < (w - 4) * (w - 4)) (i : Fin 4) :
    (gen_grid true w w bi).countObj (WorldObj.goal (color_box true i)) = 1 := by
  have B0 := box_pos_bounds w (bi 0) hw (hbi 0)
  have B1 := box_pos_bounds w (bi 1) hw (hbi 1)
  have B2 := box_pos_bounds w (bi 2) hw (hbi 2)
  have B3 := box_pos_bounds w (bi 3) hw (hbi 3)
  unfold Grid.countObj
  have hreg : (gen_grid true w w bi).region =
      Finset.Icc (0 : Int) ((w : Int) - 1) ×ˢ Finset.Icc (0 : Int) ((w : Int) - 1) := rfl
  rw [hreg]
  have hpoint : ∀ p ∈ Finset.Icc (0 : Int) ((w : Int) - 1) ×ˢ Finset.Icc (0 : Int) ((w : Int) - 1),
      (if (gen_grid true w w bi).cells p.1 p.2 = some (WorldObj.goal (color_box true i))
        then (1 : ℕ) else 0) =
      (if p = corner_pos2 w w i then 1 else 0) := by
    intro p hp
    rw [gen_grid_cells]
    have hbox : ∀ j : Fin 4, (p.1 = (box_pos_of_idx w (bi j)).1 ∧
        p.2 = (box_pos_of_idx w (bi j)).2) → ¬(p = corner_pos2 w w i) := by
      intro j hj he
      obtain ⟨f1, f2⟩ := hj
      obtain ⟨c1, c2, c3, c4⟩ := box_pos_bounds w (bi j) hw (hbi j)
      rw [Prod.ext_iff] at he
      obtain ⟨e1, e2⟩ := he
      fin_cases i <;> simp only [corner_pos2, if_pos, if_neg] at e1 e2 <;>
        simp at e1 e2 <;> omega
    by_cases hc3 : p.1 = (box_pos_of_idx w (bi 3)).1 ∧ p.2 = (box_pos_of_idx w (bi 3)).2
    · rw [if_pos hc3, if_neg (by simp), if_neg (hbox 3 hc3)]
    rw [if_neg hc3]
    by_cases hc2 : p.1 = (box_pos_of_idx w (bi 2)).1 ∧ p.2 = (box_pos_of_idx w (bi 2)).2
    · rw [if_pos hc2, if_neg (by simp), if_neg (hbox 2 hc2)]
    rw [if_neg hc2]
    by_cases hc1 : p.1 = (box_pos_of_idx w (bi 1)).1 ∧ p.2 = (box_pos_of_idx w (bi 1)).2
    · rw [if_pos hc1, if_neg (by simp), if_neg (hbox 1 hc1)]
    rw [if_neg hc1]
    by_cases hc0 : p.1 = (box_pos_of_idx w (bi 0)).1 ∧ p.2 = (box_pos_of_idx w (bi 0)).2
    · rw [if_pos hc0, if_neg (by simp), if_neg (hbox 0 hc0)]
    rw [if_neg hc0]
    by_cases hm3 : p.1 = 1 ∧ p.2 = (w : Int) - 2
    · rw [if_pos hm3]
      have hcp : corner_pos2 w w 3 = (1, (w : Int) - 2) := by simp [corner_pos2]
      by_cases hi : i = 3
      · subst hi
        rw [if_pos rfl, if_pos (by rw [hcp]; exact Prod.ext hm3.1 hm3.2)]
      · have hvne : ¬(some (WorldObj.goal (color_box true 3)) =
            some (WorldObj.goal (color_box true i))) := by
          intro he
          simp only [Option.some.injEq, WorldObj.goal.injEq] at he
          exact hi (color_box_true_inj 3 i he).symm
        have hrne : ¬(p = corner_pos2 w w i) := by
          intro he
          rw [Prod.ext_iff] at he
          obtain ⟨e1, e2⟩ := he
          obtain ⟨f1, f2⟩ := hm3
          fin_cases i <;> simp only [corner_pos2, if_pos, if_neg] at e1 e2 <;>
            simp at e1 e2 <;> first | (exact hi (by rfl)) | omega
        rw [if_neg hvne, if_neg hrne]
    rw [if_neg hm3]
    by_cases hm2 : p.1 = (w : Int) - 2 ∧ p.2 = 1
    · rw [if_pos hm2]
      have hcp : corner_pos2 w w 2 = ((w : Int) - 2, 1) := by simp [corner_pos2]
      by_cases hi : i = 2
      · subst hi
        rw [if_pos rfl, if_pos (by rw [hcp]; exact Prod.ext hm2.1 hm2.2)]
      · have hvne : ¬(some (WorldObj.goal (color_box true 2)) =
            some (WorldObj.goal (color_box true i))) := by
          intro he
          simp only [Option.some.injEq, WorldObj.goal.injEq] at he
          exact hi (color_box_true_inj 2 i he).symm
        have hrne : ¬(p = corner_pos2 w w i) := by
          intro he
          rw [Prod.ext_iff] at he
          obtain ⟨e1, e2⟩ := he
          obtain ⟨f1, f2⟩ := hm2
          fin_cases i <;> simp only [corner_pos2, if_pos, if_neg] at e1 e2 <;>
            simp at e1 e2 <;> first | (exact hi (by rfl)) | omega
        rw [if_neg hvne, if_neg hrne]
    rw [if_neg hm2]
    by_cases hm1 : p.1 = 1 ∧ p.2 = 1
    · rw [if_pos hm1]
      have hcp : corner_pos2 w w 1 = (1, 1) := by simp [corner_pos2]
      by_cases hi : i = 1
      · subst hi
        rw [if_pos rfl, if_pos (by rw [hcp]; exact Prod.ext hm1.1 hm1.2)]
      · have hvne : ¬(some (WorldObj.goal (color_box true 1)) =
            some (WorldObj.goal (color_box true i))) := by
          intro he
          simp only [Option.some.injEq, WorldObj.goal.injEq] at he
          exact hi (color_box_true_inj 1 i he).symm
        have hrne : ¬(p = corner_pos2 w w i) := by
          intro he
          rw [Prod.ext_iff] at he
          obtain ⟨e1, e2⟩ := he
          obtain ⟨f1, f2⟩ := hm1
          fin_cases i <;> simp only [corner_pos2, if_pos, if_neg] at e1 e2 <;>
            simp at e1 e2 <;> first | (exact hi (by rfl)) | omega
        rw [if_neg hvne, if_neg hrne]
    rw [if_neg hm1]
    by_cases hm0 : p.1 = (w : Int) - 2 ∧ p.2 = (w : Int) - 2
    · rw [if_pos hm0]
      have hcp : corner_pos2 w w 0 = ((w : Int) - 2, (w : Int) - 2) := by simp [corner_pos2]
      by_cases hi : i = 0
      · subst hi
        rw [if_pos rfl, if_pos (by rw [hcp]; exact Prod.ext hm0.1 hm0.2)]
      · have hvne : ¬(some (WorldObj.goal (color_box true 0)) =
            some (WorldObj.goal (color_box true i))) := by
          intro he
          simp only [Option.some.injEq, WorldObj.goal.injEq] at he
          exact hi (color_box_true_inj 0 i he).symm
        have hrne : ¬(p = corner_pos2 w w i) := by
          intro he
          rw [Prod.ext_iff] at he
          obtain ⟨e1, e2⟩ := he
          obtain ⟨f1, f2⟩ := hm0
          fin_cases i <;> simp only [corner_pos2, if_pos, if_neg] at e1 e2 <;>
            simp at e1 e2 <;> first | (exact hi (by rfl)) | omega
        rw [if_neg hvne, if_neg hrne]
    rw [if_neg hm0]
    have hrne : ¬(p = corner_pos2 w w i) := by
      intro he
      rw [Prod.ext_iff] at he
      obtain ⟨e1, e2⟩ := he
      fin_cases i <;> simp only [corner_pos2, if_pos, if_neg] at e1 e2 <;> simp at e1 e2
      · exact hm0 ⟨e1, e2⟩
      · exact hm1 ⟨e1, e2⟩
      · exact hm2 ⟨e1, e2⟩
      · exact hm3 ⟨e1, e2⟩
    have hnv : ¬((if p.1 = 0 ∨ p.2 = 0 ∨ p.1 = (w : Int) - 1 ∨ p.2 = (w : Int) - 1 then
        some WorldObj.wall else none) = some (WorldObj.goal (color_box true i))) := by
      intro he
      by_cases hww : p.1 = 0 ∨ p.2 = 0 ∨ p.1 = (w : Int) - 1 ∨ p.2 = (w : Int) - 1
      · rw [if_pos hww] at he
        simp at he
      · rw [if_neg hww] at he
        simp at he
    rw [if_neg hnv, if_neg hrne]
  rw [Finset.sum_congr rfl hpoint]
  rw [Finset.sum_ite_eq' (Finset.Icc (0 : Int) ((w : Int) - 1) ×ˢ
    Finset.Icc (0 : Int) ((w : Int) - 1)) (corner_pos2 w w i) (fun _ => (1 : ℕ))]
  have hmem : corner_pos2 w w i ∈ Finset.Icc (0 : Int) ((w : Int) - 1) ×ˢ
      Finset.Icc (0 : Int) ((w : Int) - 1) := by
    rw [Finset.mem_product, Finset.mem_Icc, Finset.mem_Icc]
    fin_cases i <;> simp [corner_pos2] <;> omega
  rw [if_pos hmem]

/-! ## Claim theorems -/

/-- C1: on a MoveForward step whose front cell holds a Box and whose
beyond cell holds a Goal of the same color, `step` increments
`success_boxes_num` by exactly 1 and resets `every_box_step_count` to
0.  The hypotheses constrain only the contents of the two cells — the
color equality — and say nothing about whether the box relocates, so
the registration is independent of the push outcome, exactly as the
guard on line 223 of `boxpushing.py` is. -/
theorem match_registers_on_color_equality (env : BoxPushingEnv) (c : Color)
    (hfwd : env.grid.get env.front_pos.1 env.front_pos.2 = some (WorldObj.box c))
    (hbeyond : env.grid.get (env.front_pos.1 + (dirVec env.agent_dir).1)
        (env.front_pos.2 + (dirVec env.agent_dir).2) = some (WorldObj.goal c)) :
    (env.step 2).1.success_boxes_num = env.success_boxes_num + 1 ∧
    (env.step 2).1.every_box_step_count = 0 := by
  simp only [BoxPushingEnv.front_pos, Grid.get] at hfwd hbeyond
  simp only [BoxPushingEnv.step, Grid.get, hfwd, hbeyond, overlapOk, canOverlap]
  simp [stepFinish]

/-- C1 witness: the concrete state reached just before the first
match of `traceTwoMatches`. -/
theorem match_registers_on_color_equality_witness :
    envBeforeFirstMatch.grid.get envBeforeFirstMatch.front_pos.1 envBeforeFirstMatch.front_pos.2 =
      some (WorldObj.box Color.green) ∧
    envBeforeFirstMatch.grid.get
      (envBeforeFirstMatch.front_pos.1 + (dirVec envBeforeFirstMatch.agent_dir).1)
      (envBeforeFirstMatch.front_pos.2 + (dirVec envBeforeFirstMatch.agent_dir).2) =
      some (WorldObj.goal Color.green) ∧
    ((envBeforeFirstMatch.step 2).1.success_boxes_num = envBeforeFirstMatch.success_boxes_num + 1 ∧
     (envBeforeFirstMatch.step 2).1.every_box_step_count = 0) :=
  ⟨by decide, by decide,
    match_registers_on_color_equality envBeforeFirstMatch Color.green (by decide) (by decide)⟩

/-- C3: any `step` call that returns (rather than raises) and ends
with `success_boxes_num = required_boxes_num` reports
`terminated = true` with reward exactly 10 — the 10 replaces whatever
per-step reward was computed earlier in the same call. -/
theorem success_end_terminates_reward_ten (env : BoxPushingEnv) (a : Nat) (r : StepResult)
    (hok : (env.step a).2 = Except.ok r)
    (hend : (env.step a).1.success_boxes_num = (env.step a).1.required_boxes_num) :
    r.terminated = true ∧ r.reward = 10 := by
  by_cases hv : a = 0 ∨ a = 1 ∨ a = 2
  · obtain ⟨e, heq, -, -, -, -, -⟩ := step_valid_split env a hv
    rw [heq, stepFinish_eq] at hok hend
    simp only [Prod.fst, Prod.snd] at hok hend
    have hs : e.is_success = true := by
      simp [BoxPushingEnv.is_success, hend]
    rw [Except.ok.injEq] at hok
    rw [← hok]
    simp [hs]
  · push_neg at hv
    rw [step_invalid env a hv.1 hv.2.1 hv.2.2] at hok
    simp at hok

/-- C3 witness: the step that lands the single required box on its
goal in `envColored1`. -/
theorem success_end_terminates_reward_ten_witness :
    (envBeforeFirstMatch.step 2).2 = Except.ok ⟨10, true, false⟩ ∧
    (envBeforeFirstMatch.step 2).1.success_boxes_num =
      (envBeforeFirstMatch.step 2).1.required_boxes_num ∧
    ((⟨10, true, false⟩ : StepResult).terminated = true ∧
     (⟨10, true, false⟩ : StepResult).reward = 10) :=
  ⟨by decide, by decide,
    success_end_terminates_reward_ten envBeforeFirstMatch 2 ⟨10, true, false⟩
      (by decide) (by decide)⟩

/-- C4: a step that returns with `terminated = false` carries reward
0 when no match event fired, and otherwise the shaped reward
`max(0, 1 - 0.9 * c / max_steps)` where `c` is
`every_box_step_count` immediately after the start-of-step increment
(and before the match resets it to 0). -/
theorem nonterminal_step_reward (env : BoxPushingEnv) (a : Nat) (r : StepResult)
    (hok : (env.step a).2 = Except.ok r)
    (hterm : r.terminated = false) :
    r.reward = if matchEvent env a = true then
      max 0 (1 - 9/10 * (((env.every_box_step_count : ℚ) + 1) / (env.max_steps : ℚ)))
    else 0 := by
  by_cases hv : a = 0 ∨ a = 1 ∨ a = 2
  · obtain ⟨e, heq, -, -, -, -, -⟩ := step_valid_split env a hv
    rw [heq, stepFinish_eq] at hok
    simp only [Prod.fst, Prod.snd] at hok
    rw [Except.ok.injEq] at hok
    rw [← hok] at hterm ⊢
    simp only at hterm ⊢
    rw [hterm]
    simp
  · push_neg at hv
    rw [step_invalid env a hv.1 hv.2.1 hv.2.2] at hok
    simp at hok

/-- C4 witness: the first match of the `required_boxes_num = 4`
episode happens on its 7th step, so the shaped reward is
`max(0, 1 - 0.9 * 7 / 256) = 2497/2560` and the episode does not
terminate. -/
theorem nonterminal_step_reward_witness :
    (envBeforeFirstMatch4.step 2).2 = Except.ok ⟨2497/2560, false, false⟩ ∧
    (⟨2497/2560, false, false⟩ : StepResult).terminated = false ∧
    (⟨2497/2560, false, false⟩ : StepResult).reward =
      (if matchEvent envBeforeFirstMatch4 2 = true then
        max 0 (1 - 9/10 * (((envBeforeFirstMatch4.every_box_step_count : ℚ) + 1) /
          (envBeforeFirstMatch4.max_steps : ℚ)))
      else 0) :=
  ⟨by with_unfolding_all rfl, by decide,
    nonterminal_step_reward envBeforeFirstMatch4 2 ⟨2497/2560, false, false⟩
      (by with_unfolding_all rfl) (by decide)⟩

/-- C5: `reset` zeroes `step_count` (base class) and
`success_boxes_num` (subclass) but leaves `every_box_step_count` at
whatever value the previous episode ended with — the claim that every
counter is recreated is contradicted by the third conjunct. -/
theorem reset_carries_over_every_box_step_count (env : BoxPushingEnv)
    (boxIdx : Fin 4 → Nat) (p : Int × Int) (d : Nat) :
    (env.reset boxIdx p d).step_count = 0 ∧
    (env.reset boxIdx p d).success_boxes_num = 0 ∧
    (env.reset boxIdx p d).every_box_step_count = env.every_box_step_count :=
  ⟨rfl, rfl, rfl⟩

/-- C6 counterexample: in `envShort` (`max_steps = 8`,
`required_boxes_num = 1`) the match lands exactly on the step where
`step_count` reaches `max_steps * required_boxes_num = 8`, and the
call reports `terminated = true` and `truncated = true` together —
the two flags are set by independent `if`s, not by an `elif`. -/
theorem terminated_and_truncated_same_step :
    ((runTrace envShort (traceShort.take 7)).step 2).2 = Except.ok ⟨10, true, true⟩ := by decide

/-- C6 amended: a returning step reports `truncated = true` exactly
when the incremented `step_count` has reached
`max_steps * required_boxes_num`; truncation is computed
independently of termination (it is not suppressed when the
success condition holds, see the counterexample). -/
theorem truncated_iff_step_bound (env : BoxPushingEnv) (a : Nat) (r : StepResult)
    (hok : (env.step a).2 = Except.ok r) :
    r.truncated = true ↔ env.max_steps * env.required_boxes_num ≤ env.step_count + 1 := by
  have hv : a = 0 ∨ a = 1 ∨ a = 2 := by
    by_contra hv
    push_neg at hv
    rw [step_invalid env a hv.1 hv.2.1 hv.2.2] at hok
    simp at hok
  obtain ⟨e, heq, -, hsc, -, hms, hreq⟩ := step_valid_split env a hv
  rw [heq, stepFinish_eq] at hok
  simp only [Prod.fst, Prod.snd] at hok
  rw [Except.ok.injEq] at hok
  rw [← hok]
  simp [hsc, hms, hreq, ge_iff_le]

/-- C6 witness: the first step of `envColored1` is far from the
bound of 256 steps, and indeed reports `truncated = false`. -/
theorem truncated_iff_step_bound_witness :
    (envColored1.step 2).2 = Except.ok ⟨0, false, false⟩ ∧
    ((⟨0, false, false⟩ : StepResult).truncated = true ↔
      envColored1.max_steps * envColored1.required_boxes_num ≤ envColored1.step_count + 1) :=
  ⟨by decide, truncated_iff_step_bound envColored1 2 ⟨0, false, false⟩ (by decide)⟩

/-- C7: an action outside `{0, 1, 2}` makes `step` raise
`UnknownAction`, with the grid, agent position, agent direction and
`success_boxes_num` exactly as before the call, while `step_count`
and `every_box_step_count` have already been incremented — the
rejected action still consumes a step. -/
theorem unknown_action_raises (env : BoxPushingEnv) (a : Nat)
    (h : ¬(a = 0 ∨ a = 1 ∨ a = 2)) :
    (env.step a).2 = Except.error (StepError.unknownAction a) ∧
    (env.step a).1.grid = env.grid ∧
    (env.step a).1.agent_pos = env.agent_pos ∧
    (env.step a).1.agent_dir = env.agent_dir ∧
    (env.step a).1.success_boxes_num = env.success_boxes_num ∧
    (env.step a).1.step_count = env.step_count + 1 ∧
    (env.step a).1.every_box_step_count = env.every_box_step_count + 1 := by
  push_neg at h
  rw [step_invalid env a h.1 h.2.1 h.2.2]
  exact ⟨rfl, rfl, rfl, rfl, rfl, rfl, rfl⟩

/-- C7 witness: the unused `done` action index 6 on the fresh
`envColored1`. -/
theorem unknown_action_raises_witness :
    ¬((6 : Nat) = 0 ∨ (6 : Nat) = 1 ∨ (6 : Nat) = 2) ∧
    ((envColored1.step 6).2 = Except.error (StepError.unknownAction 6) ∧
     (envColored1.step 6).1.grid = envColored1.grid ∧
     (envColored1.step 6).1.agent_pos = envColored1.agent_pos ∧
     (envColored1.step 6).1.agent_dir = envColored1.agent_dir ∧
     (envColored1.step 6).1.success_boxes_num = envColored1.success_boxes_num ∧
     (envColored1.step 6).1.step_count = envColored1.step_count + 1 ∧
     (envColored1.step 6).1.every_box_step_count = envColored1.every_box_step_count + 1) :=
  ⟨by decide, unknown_action_raises envColored1 6 (by decide)⟩

/-- C8: on a MoveForward step with a Box in front, if the beyond cell
is empty or `can_overlap` the Box is written to the beyond cell, the
front cell is cleared and the agent relocates to the front cell; if
the beyond cell is a Wall or a Box, the grid and the agent position
are exactly as before. -/
theorem forward_push_resolution (env : BoxPushingEnv) (c : Color)
    (hfwd : env.grid.get env.front_pos.1 env.front_pos.2 = some (WorldObj.box c)) :
    (overlapOk (env.grid.get (env.front_pos.1 + (dirVec env.agent_dir).1)
        (env.front_pos.2 + (dirVec env.agent_dir).2)) = true →
      (env.step 2).1.grid = (env.grid.set
          (env.front_pos.1 + (dirVec env.agent_dir).1)
          (env.front_pos.2 + (dirVec env.agent_dir).2) (some (WorldObj.box c))).set
          env.front_pos.1 env.front_pos.2 none ∧
      (env.step 2).1.agent_pos = env.front_pos) ∧
    ((env.grid.get (env.front_pos.1 + (dirVec env.agent_dir).1)
        (env.front_pos.2 + (dirVec env.agent_dir).2) = some WorldObj.wall ∨
      (∃ c2, env.grid.get (env.front_pos.1 + (dirVec env.agent_dir).1)
        (env.front_pos.2 + (dirVec env.agent_dir).2) = some (WorldObj.box c2))) →
      (env.step 2).1.grid = env.grid ∧
      (env.step 2).1.agent_pos = env.agent_pos) := by
  simp only [BoxPushingEnv.front_pos, Grid.get] at hfwd ⊢
  constructor
  · intro hov
    cases hnc : env.grid.cells (env.agent_pos.1 + (dirVec env.agent_dir).1 + (dirVec env.agent_dir).1)
        (env.agent_pos.2 + (dirVec env.agent_dir).2 + (dirVec env.agent_dir).2) with
    | none =>
      simp only [BoxPushingEnv.step, Grid.get, hfwd, hnc, overlapOk, canOverlap]
      simp [stepFinish]
    | some o =>
      rw [hnc] at hov
      cases o with
      | wall => simp [overlapOk, canOverlap] at hov
      | box c2 => simp [overlapOk, canOverlap] at hov
      | goal gc =>
        simp only [BoxPushingEnv.step, Grid.get, hfwd, hnc, overlapOk, canOverlap]
        by_cases hg : gc = c <;> simp [hg, stepFinish]
  · intro hblock
    rcases hblock with hw | ⟨c2, hb⟩
    · simp only [BoxPushingEnv.step, Grid.get, hfwd, hw, overlapOk, canOverlap]
      simp [stepFinish]
    · simp only [BoxPushingEnv.step, Grid.get, hfwd, hb, overlapOk, canOverlap]
      simp [stepFinish]

/-- C8 witness: the very first step of `envColored1`, a push of the
green box from (2,2) into the empty cell (1,2). -/
theorem forward_push_resolution_witness :
    envColored1.grid.get envColored1.front_pos.1 envColored1.front_pos.2 =
      some (WorldObj.box Color.green) ∧
    ((overlapOk (envColored1.grid.get (envColored1.front_pos.1 + (dirVec envColored1.agent_dir).1)
        (envColored1.front_pos.2 + (dirVec envColored1.agent_dir).2)) = true →
      (envColored1.step 2).1.grid = (envColored1.grid.set
          (envColored1.front_pos.1 + (dirVec envColored1.agent_dir).1)
          (envColored1.front_pos.2 + (dirVec envColored1.agent_dir).2)
          (some (WorldObj.box Color.green))).set
          envColored1.front_pos.1 envColored1.front_pos.2 none ∧
      (envColored1.step 2).1.agent_pos = envColored1.front_pos) ∧
    ((envColored1.grid.get (envColored1.front_pos.1 + (dirVec envColored1.agent_dir).1)
        (envColored1.front_pos.2 + (dirVec envColored1.agent_dir).2) = some WorldObj.wall ∨
      (∃ c2, envColored1.grid.get (envColored1.front_pos.1 + (dirVec envColored1.agent_dir).1)
        (envColored1.front_pos.2 + (dirVec envColored1.agent_dir).2) = some (WorldObj.box c2))) →
      (envColored1.step 2).1.grid = envColored1.grid ∧
      (envColored1.step 2).1.agent_pos = envColored1.agent_pos)) :=
  ⟨by decide, forward_push_resolution envColored1 Color.green (by decide)⟩

/-- C9 counterexample: in the `required_boxes_num = 1` episode the
first match terminates the episode at step 7, but the trace keeps
stepping (no reset) and a second match raises `success_boxes_num` to
2, strictly above `required_boxes_num`. -/
theorem success_exceeds_required_after_termination :
    envColored1.required_boxes_num = 1 ∧
    (runTrace envColored1 traceTwoMatches).success_boxes_num = 2 := ⟨by decide, by decide⟩

/-- C9 amended: `success_boxes_num` never decreases across a step,
and as long as the step starts below `required_boxes_num` (the
episode has not yet terminated) it stays bounded by
`required_boxes_num`; only steps taken after termination can exceed
the bound. -/
theorem success_monotone_bounded (env : BoxPushingEnv) (a : Nat)
    (h : env.success_boxes_num < env.required_boxes_num) :
    env.success_boxes_num ≤ (env.step a).1.success_boxes_num ∧
    (env.step a).1.success_boxes_num ≤ env.required_boxes_num := by
  by_cases hv : a = 0 ∨ a = 1 ∨ a = 2
  · obtain ⟨e, heq, hsucc, -, -, -, -⟩ := step_valid_split env a hv
    rw [heq, stepFinish_eq]
    simp only [Prod.fst]
    split at hsucc <;> omega
  · push_neg at hv
    rw [step_invalid env a hv.1 hv.2.1 hv.2.2]
    exact ⟨Nat.le_refl _, Nat.le_of_lt h⟩

/-- C9 witness: the fresh `envColored1` starts at 0 of 1 required
boxes. -/
theorem success_monotone_bounded_witness :
    envColored1.success_boxes_num < envColored1.required_boxes_num ∧
    (envColored1.success_boxes_num ≤ (envColored1.step 2).1.success_boxes_num ∧
     (envColored1.step 2).1.success_boxes_num ≤ envColored1.required_boxes_num) :=
  ⟨by decide, success_monotone_bounded envColored1 2 (by decide)⟩

/-- C10 counterexample: stepping the already-terminated episode with
a forward action that causes a further match moves
`success_boxes_num` past `required_boxes_num`, so `is_success`
becomes false again and the call returns `terminated = false` with
the shaped reward `613/640` instead of 10. -/
theorem post_termination_match_unterminates :
    envBeforeSecondMatch.is_success = true ∧
    (envBeforeSecondMatch.step 2).2 = Except.ok ⟨613/640, false, false⟩ :=
  ⟨by decide, by with_unfolding_all rfl⟩

/-- C10 amended: stepping a terminated episode with a valid action
raises no error and behaves like a running-episode step (counters
increment as usual); as long as that step does not register a new
match it again reports `terminated = true` with reward 10. -/
theorem post_termination_step_no_error (env : BoxPushingEnv) (a : Nat)
    (hv : a = 0 ∨ a = 1 ∨ a = 2)
    (hs : env.success_boxes_num = env.required_boxes_num)
    (hnm : matchEvent env a = false) :
    (env.step a).2 = Except.ok ⟨10, true,
      decide (env.step_count + 1 ≥ env.max_steps * env.required_boxes_num)⟩ ∧
    (env.step a).1.step_count = env.step_count + 1 ∧
    (env.step a).1.every_box_step_count = env.every_box_step_count + 1 := by
  obtain ⟨e, heq, hsucc, hsc, hebs, hms, hreq⟩ := step_valid_split env a hv
  rw [hnm] at hsucc hebs
  simp at hsucc hebs
  have hse : e.is_success = true := by
    simp [BoxPushingEnv.is_success, hsucc, hs, hreq]
  rw [heq, stepFinish_eq]
  simp only [Prod.fst, Prod.snd]
  refine ⟨?_, hsc, hebs⟩
  simp [hse, hsc, hms, hreq]

/-- C10 witness: turning left in the terminated state after the
first match returns `terminated = true` and reward 10 again. -/
theorem post_termination_step_no_error_witness :
    ((0 : Nat) = 0 ∨ (0 : Nat) = 1 ∨ (0 : Nat) = 2) ∧
    envAfterFirstMatch.success_boxes_num = envAfterFirstMatch.required_boxes_num ∧
    matchEvent envAfterFirstMatch 0 = false ∧
    ((envAfterFirstMatch.step 0).2 = Except.ok ⟨10, true,
        decide (envAfterFirstMatch.step_count + 1 ≥
          envAfterFirstMatch.max_steps * envAfterFirstMatch.required_boxes_num)⟩ ∧
     (envAfterFirstMatch.step 0).1.step_count = envAfterFirstMatch.step_count + 1 ∧
     (envAfterFirstMatch.step 0).1.every_box_step_count =
       envAfterFirstMatch.every_box_step_count + 1) :=
  ⟨by decide, by decide, by decide,
    post_termination_step_no_error envAfterFirstMatch 0 (by decide) (by decide) (by decide)⟩

/-- C2 counterexample: pushing the green box onto the green goal
overwrites the goal cell with the box (`grid.set` on line 219), so on
the reachable mid-episode state after 7 steps of the 4-box episode
the green goal no longer occupies any cell. -/
theorem goal_color_vanishes_after_push :
    Grid.countObj envColored4.grid (WorldObj.goal Color.green) = 1 ∧
    Grid.countObj (runTrace envColored4 (traceTwoMatches.take 7)).grid
      (WorldObj.goal Color.green) = 0 :=
  ⟨by decide, by decide⟩

/-- C2 amended: in colored mode, from any freshly reset environment
(distinct in-range box indices, agent inside the border) and along any
action sequence, each of the 4 box colors occupies exactly one grid
cell; each of the 4 goal colors occupies exactly one cell at reset
(but not necessarily later — see the counterexample: a push onto a
goal overwrites it). -/
theorem box_colors_unique_along_episode (size ms req : Nat) (hsize : 6 ≤ size)
    (boxIdx : Fin 4 → Nat) (hidx : ∀ i, boxIdx i < (size - 4) * (size - 4))
    (hinj : ∀ i j : Fin 4, boxIdx i = boxIdx j → i = j)
    (ap : Int × Int) (hax : 1 ≤ ap.1 ∧ ap.1 ≤ (size : Int) - 2)
    (hay : 1 ≤ ap.2 ∧ ap.2 ≤ (size : Int) - 2) (ad : Nat)
    (acts : List Nat) (i : Fin 4) :
    (runTrace (mkEnv size ms req true boxIdx ap ad) acts).grid.countObj
        (WorldObj.box (color_box true i)) = 1 ∧
    (mkEnv size ms req true boxIdx ap ad).grid.countObj
        (WorldObj.goal (color_box true i)) = 1 := by
  have hwf := WF_mkEnv size ms req true boxIdx hsize hidx ap hax hay ad
  have hg : (mkEnv size ms req true boxIdx ap ad).grid = gen_grid true size size boxIdx := rfl
  constructor
  · rw [(runTrace_WF_box_count (mkEnv size ms req true boxIdx ap ad) acts hwf
      (color_box true i)).2]
    rw [hg]
    exact gen_grid_box_count size hsize boxIdx hidx hinj i
  · rw [hg]
    exact gen_grid_goal_count size hsize boxIdx hidx i

/-- C2 witness: the concrete 4-box colored episode, its two-match
trace, and the green color index. -/
theorem box_colors_unique_along_episode_witness :
    (6 ≤ 8 ∧ (∀ i : Fin 4, idx4 i < (8 - 4) * (8 - 4)) ∧
     (∀ i j : Fin 4, idx4 i = idx4 j → i = j)) ∧
    ((runTrace (mkEnv 8 256 4 true idx4 (3, 2) 2) traceTwoMatches).grid.countObj
        (WorldObj.box (color_box true 1)) = 1 ∧
     (mkEnv 8 256 4 true idx4 (3, 2) 2).grid.countObj
        (WorldObj.goal (color_box true 1)) = 1) :=
  ⟨⟨by decide, by decide, by decide⟩,
    box_colors_unique_along_episode 8 256 4 (by decide) idx4 (by decide) (by decide)
      (3, 2) (by decide) (by decide) 2 traceTwoMatches 1⟩

end BoxPushing
